import Mathlib

/-!
Verification of the connection-graph pass of `connections.py` (BEE2.4).

The Python module is shallowly embedded: each phase of `calc_connections`,
the `Connection` add/remove/set_item operations, `ItemType.parse` and the
fixup/signage passes become executable Lean definitions, and the spec's
claims about them are stated and proved (or refuted) below.
-/

/-- `ConnType`: kind of Input A/B type, or TBeam type
(values `default`, `primary`, `secondary`, `both`). -/
inductive ConnType where
  | default
  | primary
  | secondary
  | both
deriving DecidableEq, Repr

/-- Alias from the source: `TBEAM_IO = PRIMARY`. -/
def ConnType.tbeam_io : ConnType := ConnType.primary

/-- Alias from the source: `TBEAM_DIR = SECONDARY`. -/
def ConnType.tbeam_dir : ConnType := ConnType.secondary

/-! ### String helpers

Core `String` functions do not reduce in the kernel, so the few string
operations the code needs (suffix test, ASCII case folding, ordering by
name) are defined here over the character list. -/

/-- `s.endswith(suf)`: the Python suffix test. -/
def strEndsWith (s suf : String) : Bool := List.isSuffixOf suf.data s.data

/-- ASCII lower-casing of one character (enough for `str.casefold` on the
ASCII tokens this module compares). -/
def asciiLowerChar (c : Char) : Char :=
  if 65 ≤ c.toNat ∧ c.toNat ≤ 90 then Char.ofNat (c.toNat + 32) else c

/-- `str.casefold()` on ASCII strings. -/
def foldCase (s : String) : String := ⟨s.data.map asciiLowerChar⟩

/-- Lexicographic comparison of character lists by code point. -/
def charListLe : List Char → List Char → Bool
  | [], _ => true
  | _ :: _, [] => false
  | a :: as, b :: bs =>
    if a.toNat < b.toNat then true
    else if b.toNat < a.toNat then false
    else charListLe as bs

/-- String ordering used for the deterministic signage sort. -/
def nameLe (a b : String) : Bool := charListLe a.data b.data

/-! ## The Connection graph model (`Connection.add` / `remove` / `set_item`)

Items and Connections are Python objects; we identify them by `Nat` ids.
Each item owns two sets, `inputs` and `outputs`, holding connection ids;
each connection records its current endpoints `inp` (target item) and
`out` (source item), exactly the `Connection.__slots__` fields. -/

/-- The two endpoint fields of a `Connection`: `inp` is the item being
triggered, `out` the item the connection comes from. -/
structure ConnEnds where
  inp : Nat
  out : Nat
deriving DecidableEq, Repr

/-- Global mutable state of the graph: endpoint fields of every
connection, and the `inputs` / `outputs` sets of every item. -/
structure GraphState where
  conns : Nat → ConnEnds
  inputs : Nat → Finset Nat
  outputs : Nat → Finset Nat

/-- `Connection.add`: insert the connection into its target's `inputs`
set and its source's `outputs` set. -/
def connAdd (c : Nat) (s : GraphState) : GraphState :=
  { s with
    inputs := Function.update s.inputs (s.conns c).inp
      (insert c (s.inputs (s.conns c).inp)),
    outputs := Function.update s.outputs (s.conns c).out
      (insert c (s.outputs (s.conns c).out)) }

/-- `Connection.remove`: discard the connection from its target's
`inputs` set and its source's `outputs` set. -/
def connRemove (c : Nat) (s : GraphState) : GraphState :=
  { s with
    inputs := Function.update s.inputs (s.conns c).inp
      ((s.inputs (s.conns c).inp).erase c),
    outputs := Function.update s.outputs (s.conns c).out
      ((s.outputs (s.conns c).out).erase c) }

/-- `Connection.set_item(input, output)`: remove, overwrite whichever
endpoints were given, then add again. -/
def connSetItem (c : Nat) (ni no : Option Nat) (s : GraphState) : GraphState :=
  let s1 := connRemove c s
  let ends := ConnEnds.mk (ni.getD (s1.conns c).inp) (no.getD (s1.conns c).out)
  let s2 : GraphState := { s1 with conns := Function.update s1.conns c ends }
  connAdd c s2

/-- The operations on the graph reachable from `Connection` methods. -/
inductive ConnOp where
  | add (c : Nat)
  | remove (c : Nat)
  | setItem (c : Nat) (ni no : Option Nat)
deriving DecidableEq, Repr

def applyOp : ConnOp → GraphState → GraphState
  | ConnOp.add c, s => connAdd c s
  | ConnOp.remove c, s => connRemove c s
  | ConnOp.setItem c ni no, s => connSetItem c ni no s

def applyOps (ops : List ConnOp) (s : GraphState) : GraphState :=
  ops.foldl (fun st op => applyOp op st) s

/-- A connection only ever sits in the `inputs` set of its own target and
in the `outputs` set of its own source, and it sits in the one iff it
sits in the other: the dual-membership invariant. -/
def GraphInv (s : GraphState) : Prop :=
  (∀ c i, c ∈ s.inputs i → i = (s.conns c).inp) ∧
  (∀ c i, c ∈ s.outputs i → i = (s.conns c).out) ∧
  (∀ c, c ∈ s.inputs ((s.conns c).inp) ↔ c ∈ s.outputs ((s.conns c).out))

/-- "Never in exactly one of the two sets": a connection appears in some
item's `inputs` iff it appears in some item's `outputs`. -/
def neverPartial (s : GraphState) : Prop :=
  ∀ c, (∃ i, c ∈ s.inputs i) ↔ (∃ i, c ∈ s.outputs i)

lemma connAdd_conns (c : Nat) (s : GraphState) : (connAdd c s).conns = s.conns := rfl

lemma connRemove_conns (c : Nat) (s : GraphState) :
    (connRemove c s).conns = s.conns := rfl

lemma mem_connAdd_inputs (s : GraphState) (c c2 i : Nat) :
    c2 ∈ (connAdd c s).inputs i ↔
      (i = (s.conns c).inp ∧ c2 = c) ∨ c2 ∈ s.inputs i := by
  by_cases h : i = (s.conns c).inp <;>
    simp [connAdd, Function.update_apply, h]

lemma mem_connAdd_outputs (s : GraphState) (c c2 i : Nat) :
    c2 ∈ (connAdd c s).outputs i ↔
      (i = (s.conns c).out ∧ c2 = c) ∨ c2 ∈ s.outputs i := by
  by_cases h : i = (s.conns c).out <;>
    simp [connAdd, Function.update_apply, h]

lemma mem_connRemove_inputs (s : GraphState) (c c2 i : Nat) :
    c2 ∈ (connRemove c s).inputs i ↔
      c2 ∈ s.inputs i ∧ ¬(c2 = c ∧ i = (s.conns c).inp) := by
  by_cases h : i = (s.conns c).inp
  · subst h
    simp [connRemove, Function.update_apply]
    tauto
  · simp [connRemove, Function.update_apply, h]

lemma mem_connRemove_outputs (s : GraphState) (c c2 i : Nat) :
    c2 ∈ (connRemove c s).outputs i ↔
      c2 ∈ s.outputs i ∧ ¬(c2 = c ∧ i = (s.conns c).out) := by
  by_cases h : i = (s.conns c).out
  · subst h
    simp [connRemove, Function.update_apply]
    tauto
  · simp [connRemove, Function.update_apply, h]

lemma graphInv_connAdd (s : GraphState) (c : Nat) (h : GraphInv s) :
    GraphInv (connAdd c s) := by
  obtain ⟨hin, hout, hiff⟩ := h
  refine ⟨?_, ?_, ?_⟩
  · intro c2 i hm
    rw [mem_connAdd_inputs] at hm
    rw [connAdd_conns]
    rcases hm with ⟨hi, hc⟩ | hm
    · subst hc; exact hi
    · exact hin c2 i hm
  · intro c2 i hm
    rw [mem_connAdd_outputs] at hm
    rw [connAdd_conns]
    rcases hm with ⟨hi, hc⟩ | hm
    · subst hc; exact hi
    · exact hout c2 i hm
  · intro c2
    rw [connAdd_conns, mem_connAdd_inputs, mem_connAdd_outputs]
    by_cases hc : c2 = c
    · subst hc; tauto
    · simp only [hc, and_false, false_or]
      exact hiff c2

lemma graphInv_connRemove (s : GraphState) (c : Nat) (h : GraphInv s) :
    GraphInv (connRemove c s) := by
  obtain ⟨hin, hout, hiff⟩ := h
  refine ⟨?_, ?_, ?_⟩
  · intro c2 i hm
    rw [mem_connRemove_inputs] at hm
    rw [connRemove_conns]
    exact hin c2 i hm.1
  · intro c2 i hm
    rw [mem_connRemove_outputs] at hm
    rw [connRemove_conns]
    exact hout c2 i hm.1
  · intro c2
    rw [connRemove_conns, mem_connRemove_inputs, mem_connRemove_outputs]
    by_cases hc : c2 = c
    · subst hc; tauto
    · simp only [hc, false_and, not_false_iff, and_true]
      exact hiff c2

lemma connRemove_not_mem (s : GraphState) (c : Nat) (h : GraphInv s) :
    (∀ i, c ∉ (connRemove c s).inputs i) ∧
    (∀ i, c ∉ (connRemove c s).outputs i) := by
  obtain ⟨hin, hout, _⟩ := h
  constructor
  · intro i hm
    rw [mem_connRemove_inputs] at hm
    exact hm.2 ⟨rfl, hin c i hm.1⟩
  · intro i hm
    rw [mem_connRemove_outputs] at hm
    exact hm.2 ⟨rfl, hout c i hm.1⟩

lemma graphInv_update_conns_of_not_mem (s : GraphState) (c : Nat) (e : ConnEnds)
    (h : GraphInv s)
    (hin0 : ∀ i, c ∉ s.inputs i) (hout0 : ∀ i, c ∉ s.outputs i) :
    GraphInv { s with conns := Function.update s.conns c e } := by
  obtain ⟨hin, hout, hiff⟩ := h
  refine ⟨?_, ?_, ?_⟩
  · intro c2 i hm
    by_cases hc : c2 = c
    · subst hc; exact absurd hm (hin0 i)
    · simp only [Function.update_apply, hc, if_false]
      exact hin c2 i hm
  · intro c2 i hm
    by_cases hc : c2 = c
    · subst hc; exact absurd hm (hout0 i)
    · simp only [Function.update_apply, hc, if_false]
      exact hout c2 i hm
  · intro c2
    by_cases hc : c2 = c
    · subst hc
      simp only [Function.update_apply]
      constructor
      · intro hm; exact absurd hm (hin0 _)
      · intro hm; exact absurd hm (hout0 _)
    · simp only [Function.update_apply, hc, if_false]
      exact hiff c2

lemma graphInv_connSetItem (s : GraphState) (c : Nat) (ni no : Option Nat)
    (h : GraphInv s) : GraphInv (connSetItem c ni no s) := by
  simp only [connSetItem]
  apply graphInv_connAdd
  exact graphInv_update_conns_of_not_mem _ c _
    (graphInv_connRemove s c h)
    (connRemove_not_mem s c h).1
    (connRemove_not_mem s c h).2

lemma connSetItem_conns_self (s : GraphState) (c : Nat) (ni no : Option Nat) :
    (connSetItem c ni no s).conns c =
      ConnEnds.mk (ni.getD ((s.conns c).inp)) (no.getD ((s.conns c).out)) := by
  simp [connSetItem, connAdd, connRemove, Function.update_apply]

lemma connAdd_mem_self (s : GraphState) (c : Nat) :
    c ∈ (connAdd c s).inputs (((connAdd c s).conns c).inp) ∧
    c ∈ (connAdd c s).outputs (((connAdd c s).conns c).out) := by
  constructor
  · rw [mem_connAdd_inputs]
    exact Or.inl ⟨rfl, rfl⟩
  · rw [mem_connAdd_outputs]
    exact Or.inl ⟨rfl, rfl⟩

lemma connAdd_not_mem_inputs (s : GraphState) (c : Nat)
    (hin0 : ∀ i, c ∉ s.inputs i) (i : Nat)
    (hi : i ≠ ((connAdd c s).conns c).inp) : c ∉ (connAdd c s).inputs i := by
  rw [mem_connAdd_inputs]
  rintro (⟨hieq, _⟩ | hm)
  · exact hi hieq
  · exact hin0 i hm

lemma connAdd_not_mem_outputs (s : GraphState) (c : Nat)
    (hout0 : ∀ i, c ∉ s.outputs i) (i : Nat)
    (hi : i ≠ ((connAdd c s).conns c).out) : c ∉ (connAdd c s).outputs i := by
  rw [mem_connAdd_outputs]
  rintro (⟨hieq, _⟩ | hm)
  · exact hi hieq
  · exact hout0 i hm

lemma connSetItem_mem (s : GraphState) (c : Nat) (ni no : Option Nat)
    (h : GraphInv s) :
    (c ∈ (connSetItem c ni no s).inputs (((connSetItem c ni no s).conns c).inp)) ∧
    (c ∈ (connSetItem c ni no s).outputs (((connSetItem c ni no s).conns c).out)) ∧
    (∀ i, i ≠ ((connSetItem c ni no s).conns c).inp →
      c ∉ (connSetItem c ni no s).inputs i) ∧
    (∀ i, i ≠ ((connSetItem c ni no s).conns c).out →
      c ∉ (connSetItem c ni no s).outputs i) := by
  have hnm := connRemove_not_mem s c h
  simp only [connSetItem]
  refine ⟨(connAdd_mem_self _ c).1, (connAdd_mem_self _ c).2, ?_, ?_⟩
  · intro i hi
    refine connAdd_not_mem_inputs _ c ?_ i hi
    intro j
    exact hnm.1 j
  · intro i hi
    refine connAdd_not_mem_outputs _ c ?_ i hi
    intro j
    exact hnm.2 j

lemma graphInv_applyOp (op : ConnOp) (s : GraphState) (h : GraphInv s) :
    GraphInv (applyOp op s) := by
  cases op with
  | add c => exact graphInv_connAdd s c h
  | remove c => exact graphInv_connRemove s c h
  | setItem c ni no => exact graphInv_connSetItem s c ni no h

lemma graphInv_applyOps (ops : List ConnOp) (s : GraphState) (h : GraphInv s) :
    GraphInv (applyOps ops s) := by
  induction ops generalizing s with
  | nil => exact h
  | cons op rest ih => exact ih (applyOp op s) (graphInv_applyOp op s h)

lemma graphInv_neverPartial (s : GraphState) (h : GraphInv s) : neverPartial s := by
  obtain ⟨hin, hout, hiff⟩ := h
  intro c
  constructor
  · rintro ⟨i, hm⟩
    have := hin c i hm
    subst this
    exact ⟨_, (hiff c).1 hm⟩
  · rintro ⟨i, hm⟩
    have := hout c i hm
    subst this
    exact ⟨_, (hiff c).2 hm⟩

/-- Empty initial graph: no connection registered anywhere. -/
def graphZero : GraphState :=
  { conns := fun _ => ConnEnds.mk 0 1,
    inputs := fun _ => ∅,
    outputs := fun _ => ∅ }

lemma graphInv_graphZero : GraphInv graphZero := by
  refine ⟨?_, ?_, ?_⟩ <;> intro c <;> simp [graphZero]

/-- C1: membership of a `Connection` is dual and atomic. After
`Connection.add()` it is in both its target's `inputs` set and its
source's `outputs` set; after `Connection.remove()` it is in neither
(anywhere); after `Connection.set_item(input, output)` it is fully
deregistered from the old endpoints and registered exactly on the new
ones; and every state reachable by these operations from a
dual-consistent state keeps the dual-membership invariant, so no
reachable state has a connection in exactly one of the two sets. -/
theorem c1_connection_dual_atomic_membership
    (s : GraphState) (c : Nat) (ni no : Option Nat) (ops : List ConnOp)
    (h : GraphInv s) :
    (c ∈ (connAdd c s).inputs ((s.conns c).inp) ∧
     c ∈ (connAdd c s).outputs ((s.conns c).out)) ∧
    ((∀ i, c ∉ (connRemove c s).inputs i) ∧
     (∀ i, c ∉ (connRemove c s).outputs i)) ∧
    ((connSetItem c ni no s).conns c =
        ConnEnds.mk (ni.getD ((s.conns c).inp)) (no.getD ((s.conns c).out)) ∧
     c ∈ (connSetItem c ni no s).inputs (((connSetItem c ni no s).conns c).inp) ∧
     c ∈ (connSetItem c ni no s).outputs (((connSetItem c ni no s).conns c).out) ∧
     (∀ i, i ≠ ((connSetItem c ni no s).conns c).inp →
        c ∉ (connSetItem c ni no s).inputs i) ∧
     (∀ i, i ≠ ((connSetItem c ni no s).conns c).out →
        c ∉ (connSetItem c ni no s).outputs i)) ∧
    (GraphInv (applyOps ops s) ∧ neverPartial (applyOps ops s)) := by
  obtain ⟨hset1, hset2, hset3, hset4⟩ := connSetItem_mem s c ni no h
  refine ⟨⟨(connAdd_mem_self s c).1, (connAdd_mem_self s c).2⟩,
    connRemove_not_mem s c h,
    ⟨connSetItem_conns_self s c ni no, hset1, hset2, hset3, hset4⟩,
    graphInv_applyOps ops s h,
    graphInv_neverPartial _ (graphInv_applyOps ops s h)⟩

/-- Witness for C1: the dual-membership theorem applied to the empty
graph, connection 0, `set_item` retargeting the input to item 2, and a
concrete add / set_item / remove operation sequence. -/
theorem c1_connection_dual_atomic_membership_witness :
    GraphInv graphZero ∧
    (GraphInv (applyOps
        [ConnOp.add 0, ConnOp.setItem 0 (some 2) none, ConnOp.remove 0]
        graphZero) ∧
     neverPartial (applyOps
        [ConnOp.add 0, ConnOp.setItem 0 (some 2) none, ConnOp.remove 0]
        graphZero)) :=
  ⟨graphInv_graphZero,
   (c1_connection_dual_atomic_membership graphZero 0 (some 2) none
      [ConnOp.add 0, ConnOp.setItem 0 (some 2) none, ConnOp.remove 0]
      graphInv_graphZero).2.2.2⟩

/-! ## `ItemType.parse` (configuration parsing)

A `Property` config block is modelled as its (casefolded) key/value
pairs plus its `real_name`; `Property` lookup in srctools folds the key
case, so keys are stored already folded. `Output.parse_name` lives in
srctools (outside this repository), so the parser is parametrised by it:
it maps a command string to an (optional instance, input-name) pair. -/

/-- Python exceptions that `ItemType.parse` can raise: a `ValueError`
with a formatted message, or an `IndexError` from a `conf[key]` lookup
with no default when the key is missing. -/
inductive PyErr where
  | valueError (msg : String)
  | indexError (key : String)
deriving DecidableEq, Repr

/-- A config block: `real_name` plus key/value children (keys folded). -/
structure Conf where
  real_name : String
  entries : List (String × String)
deriving DecidableEq, Repr

/-- `conf[key]` without default: the raw lookup. -/
def Conf.find (c : Conf) (k : String) : Option String :=
  (c.entries.find? (fun p => p.1 == k)).map (fun p => p.2)

/-- `conf[key, default]`. -/
def Conf.get (c : Conf) (k dflt : String) : String := (c.find k).getD dflt

/-- `key in conf`. -/
def Conf.hasKey (c : Conf) (k : String) : Bool := (c.find k).isSome

/-- `ConnType(token)`: the Python enum lookup by value; `none` models the
`ValueError` branch. -/
def connTypeOfToken (s : String) : Option ConnType :=
  if s = "default" then some ConnType.default
  else if s = "primary" then some ConnType.primary
  else if s = "secondary" then some ConnType.secondary
  else if s = "both" then some ConnType.both
  else none

/-- The fields of a parsed `ItemType` (the `ItemType.__init__` slots). -/
structure ItemTypeM where
  id : String
  default_dual : Option ConnType
  invert_var : String
  enable_cmd : Option String × String
  disable_cmd : Option String × String
  sec_invert_var : Option String
  sec_enable_cmd : Option (Option String × String)
  sec_disable_cmd : Option (Option String × String)
  output_type : ConnType
deriving DecidableEq, Repr

/-- `ItemType.parse(conf)`, line for line.  Note the source reads
`conf['sec_enable_cmd', '']` / `conf['sec_disable_cmd', '']` for the
*primary* `enable_cmd` / `disable_cmd`, and formats
`conf['default_dual']` into the "Invalid output affinity" message. -/
def itemTypeParse (pn : String → Option String × String) (conf : Conf) :
    Except PyErr ItemTypeM := do
  let enable_cmd := pn (conf.get "sec_enable_cmd" "")
  let disable_cmd := pn (conf.get "sec_disable_cmd" "")
  let has_sec := conf.hasKey "sec_enable_cmd" || conf.hasKey "sec_disable_cmd"
  let invert_var := conf.get "invertvar" "0"
  let secPart ←
    if has_sec then
      match connTypeOfToken (foldCase (conf.get "default_dual" "default")) with
      | some dd =>
          pure (some (pn (conf.get "sec_enable_cmd" "")),
                some (pn (conf.get "sec_disable_cmd" "")),
                some dd,
                some (conf.get "sec_invertvar" "0"))
      | none =>
          match conf.find "default_dual" with
          | some v =>
              throw (PyErr.valueError
                ("Invalid default type for \"" ++ conf.real_name ++ "\": " ++ v))
          | none => throw (PyErr.indexError "default_dual")
    else
      pure (none, none, none, none)
  let output_type ←
    match connTypeOfToken (foldCase (conf.get "dualtype" "default")) with
    | some ot => pure ot
    | none =>
        match conf.find "default_dual" with
        | some v =>
            throw (PyErr.valueError
              ("Invalid output affinity for \"" ++ conf.real_name ++ "\": " ++ v))
        | none => throw (PyErr.indexError "default_dual")
  pure { id := conf.real_name,
         default_dual := secPart.2.2.1,
         invert_var := invert_var,
         enable_cmd := enable_cmd,
         disable_cmd := disable_cmd,
         sec_invert_var := secPart.2.2.2,
         sec_enable_cmd := secPart.1,
         sec_disable_cmd := secPart.2.1,
         output_type := output_type }

/-- A concrete stand-in for `Output.parse_name` when evaluating the
parser on closed inputs (injective, so distinct commands stay distinct). -/
def parseNameId : String → Option String × String := fun s => (none, s)

/-- An item-type config whose primary and secondary command entries are
all present and pairwise distinct. -/
def c5conf : Conf :=
  { real_name := "item_a",
    entries := [("enable_cmd", "PrimEnable"), ("disable_cmd", "PrimDisable"),
                ("sec_enable_cmd", "SecEnable"),
                ("sec_disable_cmd", "SecDisable")] }

/-- C5 (code bug): `ItemType.parse` is specified to fill the primary
`enable_cmd` / `disable_cmd` from the primary config entries, but the
source reads `conf['sec_enable_cmd', '']` / `conf['sec_disable_cmd', '']`
for them: on a config where the primary and secondary entries differ,
the parsed primary commands equal the secondary entries, not the primary
ones. -/
theorem c5_enable_cmd_read_from_secondary_fields :
    (itemTypeParse parseNameId c5conf).map
        (fun it => (it.enable_cmd, it.disable_cmd))
      = Except.ok ((none, "SecEnable"), (none, "SecDisable"))
    ∧ c5conf.get "enable_cmd" "" = "PrimEnable"
    ∧ c5conf.get "sec_enable_cmd" "" = "SecEnable"
    ∧ parseNameId "SecEnable" ≠ parseNameId "PrimEnable" :=
  ⟨rfl, rfl, rfl, by decide⟩

/-- An item-type config with an invalid `DualType` token and a valid,
different `default_dual` token. -/
def c6conf : Conf :=
  { real_name := "item_b",
    entries := [("dualtype", "banana"), ("default_dual", "primary")] }

/-- The same config without any `default_dual` child. -/
def c6confNoDflt : Conf :=
  { real_name := "item_b", entries := [("dualtype", "banana")] }

/-- C6 (code bug): an invalid `DualType` token is rejected, but the
"Invalid output affinity" message formats `conf['default_dual']`, not the
offending `DualType` value: here the rejected token is "banana" yet the
message names "primary"; and when no `default_dual` child exists the
lookup itself raises an `IndexError` instead of the formatted error. -/
theorem c6_output_affinity_error_names_wrong_token :
    itemTypeParse parseNameId c6conf
      = Except.error
          (PyErr.valueError "Invalid output affinity for \"item_b\": primary")
    ∧ c6conf.get "dualtype" "default" = "banana"
    ∧ PyErr.valueError "Invalid output affinity for \"item_b\": primary"
        ≠ PyErr.valueError "Invalid output affinity for \"item_b\": banana"
    ∧ itemTypeParse parseNameId c6confNoDflt
        = Except.error (PyErr.indexError "default_dual") :=
  ⟨rfl, rfl, by decide, rfl⟩

/-! ## Output processing in `calc_connections`

The per-item loop over `inputs` (the item's raw outputs grouped by
target name) is embedded as a fold.  The environment holds the maps the
loop consults: `toggles` (name → its `$indicator_name` fixup), `panels`
(name → panel instance), the registered item names, and the antline
overlay groups keyed by indicator name. -/

/-- An indicator-panel instance: its `$timer_enabled` / `$timer_delay`
fixups and its `file` keyvalue. -/
structure Panel where
  name : String
  tim_enabled : Bool
  tim_delay : Int
  file : String
deriving DecidableEq, Repr

/-- Assoc-list lookup (Python dict read access by key). -/
def lookupStr {α : Type} (l : List (String × α)) (k : String) : Option α :=
  (l.find? (fun p => p.1 == k)).map (fun p => p.2)

structure ProcEnv where
  toggles : List (String × String)
  panels : List (String × Panel)
  items : List String
  overlays : String → List Nat

/-- The per-item mutable state the output loop updates: the timer, the
attached panels, the antline overlays and the accumulated item-to-item
edge candidates (`input_items`). -/
structure ProcState where
  timer : Option Int
  ind_panels : List Panel
  antlines : List Nat
  input_items : List String
deriving DecidableEq, Repr

/-- A fresh `Item(inst, item_type)`: timer `None`, nothing attached. -/
def procInit : ProcState :=
  { timer := none, ind_panels := [], antlines := [], input_items := [] }

/-- `out_name.endswith(('_modelStart', '_modelEnd', '_brush'))`. -/
def isSubEntityName (s : String) : Bool :=
  strEndsWith s "_modelStart" || strEndsWith s "_modelEnd" ||
    strEndsWith s "_brush"

/-- One iteration of the `for out_name in inputs` loop. -/
def processOut (env : ProcEnv) (st : ProcState) (out_name : String) :
    Except String ProcState :=
  if isSubEntityName out_name then Except.ok st
  else
    match lookupStr env.toggles out_name with
    | some ind_name =>
        Except.ok { st with antlines := st.antlines ++ env.overlays ind_name }
    | none =>
        match lookupStr env.panels out_name with
        | some pan =>
            Except.ok { st with
              ind_panels := st.ind_panels ++ [pan],
              timer :=
                if pan.tim_enabled then
                  if 1 ≤ pan.tim_delay ∧ pan.tim_delay ≤ 30 then
                    some pan.tim_delay
                  else none
                else none }
        | none =>
            if env.items.contains out_name then
              Except.ok { st with input_items := st.input_items ++ [out_name] }
            else
              Except.error ("\"" ++ out_name ++ "\" is not a known instance!")

/-- The whole `for out_name in inputs` loop. -/
def processOuts (env : ProcEnv) (st : ProcState) (outs : List String) :
    Except String ProcState :=
  outs.foldlM (processOut env) st

/-- A timer value is `None` or an integer in [1, 30]. -/
def timerOk (t : Option Int) : Prop :=
  t = none ∨ ∃ n : Int, t = some n ∧ 1 ≤ n ∧ n ≤ 30

lemma processOut_timerOk (env : ProcEnv) (st : ProcState) (name : String)
    (st2 : ProcState) (h : timerOk st.timer)
    (hok : processOut env st name = Except.ok st2) : timerOk st2.timer := by
  unfold processOut at hok
  split at hok
  · cases hok; exact h
  · split at hok
    · cases hok; exact h
    · split at hok
      · cases hok
        rename_i pan _
        by_cases he : pan.tim_enabled
        · by_cases hr : 1 ≤ pan.tim_delay ∧ pan.tim_delay ≤ 30
          · simp only [he, if_true, hr]
            exact Or.inr ⟨pan.tim_delay, rfl, hr.1, hr.2⟩
          · simp only [he, if_true, hr, if_false]
            exact Or.inl rfl
        · simp only [he, if_false]
          exact Or.inl rfl
      · split at hok
        · cases hok; exact h
        · cases hok

lemma processOuts_timerOk (env : ProcEnv) (outs : List String)
    (st st2 : ProcState) (h : timerOk st.timer)
    (hok : processOuts env st outs = Except.ok st2) : timerOk st2.timer := by
  induction outs generalizing st with
  | nil =>
      simp only [processOuts, List.foldlM] at hok
      cases hok; exact h
  | cons a rest ih =>
      simp only [processOuts, List.foldlM] at hok
      cases hstep : processOut env st a with
      | error e => rw [hstep] at hok; cases hok
      | ok st1 =>
          rw [hstep] at hok
          exact ih st1 (processOut_timerOk env st a st1 h hstep) hok

lemma processOuts_cons_ok (env : ProcEnv) (st : ProcState) (a : String)
    (rest : List String) (st1 : ProcState)
    (h : processOut env st a = Except.ok st1) :
    processOuts env st (a :: rest) = processOuts env st1 rest := by
  simp only [processOuts, List.foldlM, h]
  rfl

lemma processOuts_cons_err (env : ProcEnv) (st : ProcState) (a : String)
    (rest : List String) (e : String)
    (h : processOut env st a = Except.error e) :
    processOuts env st (a :: rest) = Except.error e := by
  simp only [processOuts, List.foldlM, h]
  rfl

lemma processOut_panel (env : ProcEnv) (st : ProcState) (name : String)
    (pan : Panel) (hnp : isSubEntityName name = false)
    (hnt : lookupStr env.toggles name = none)
    (hp : lookupStr env.panels name = some pan) :
    processOut env st name = Except.ok { st with
      ind_panels := st.ind_panels ++ [pan],
      timer :=
        if pan.tim_enabled then
          (if 1 ≤ pan.tim_delay ∧ pan.tim_delay ≤ 30 then some pan.tim_delay
           else none)
        else none } := by
  simp [processOut, hnp, hnt, hp]

/-- C3: starting from a fresh item (timer `None`), after the output loop
the timer is `None` or an integer in [1, 30]; and processing a panel
output sets the timer to `None` when the panel's timer-enabled fixup is
false, to the delay when enabled and the delay is in [1, 30], and to
`None` when enabled but the delay is out of range. -/
theorem c3_timer_none_or_in_range
    (env : ProcEnv) (outs : List String) (st2 st : ProcState)
    (name : String) (pan : Panel)
    (hok : processOuts env procInit outs = Except.ok st2)
    (hnp : isSubEntityName name = false)
    (hnt : lookupStr env.toggles name = none)
    (hp : lookupStr env.panels name = some pan) :
    timerOk st2.timer
    ∧ (pan.tim_enabled = false →
        ∃ st3, processOut env st name = Except.ok st3 ∧ st3.timer = none)
    ∧ (pan.tim_enabled = true → 1 ≤ pan.tim_delay → pan.tim_delay ≤ 30 →
        ∃ st3, processOut env st name = Except.ok st3 ∧
          st3.timer = some pan.tim_delay)
    ∧ (pan.tim_enabled = true → ¬(1 ≤ pan.tim_delay ∧ pan.tim_delay ≤ 30) →
        ∃ st3, processOut env st name = Except.ok st3 ∧ st3.timer = none) := by
  refine ⟨processOuts_timerOk env outs procInit st2 (Or.inl rfl) hok,
    ?_, ?_, ?_⟩
  · intro he
    exact ⟨_, processOut_panel env st name pan hnp hnt hp, by simp [he]⟩
  · intro he h1 h30
    refine ⟨_, processOut_panel env st name pan hnp hnt hp, ?_⟩
    simp [he, h1, h30]
  · intro he hr
    refine ⟨_, processOut_panel env st name pan hnp hnt hp, ?_⟩
    simp [he, hr]

/-- The indicator panel of the spec's "reverser_1" scenario:
timer-enabled, delay 3. -/
def panel3 : Panel :=
  { name := "reverser_1_timer", tim_enabled := true, tim_delay := 3,
    file := "orig_file" }

/-- Environment with `panel3` as the only registered instance. -/
def envC3 : ProcEnv :=
  { toggles := [], panels := [("reverser_1_timer", panel3)], items := [],
    overlays := fun _ => [] }

/-- The state the output loop reaches in that scenario. -/
def c3OutState : ProcState :=
  { timer := some 3, ind_panels := [panel3], antlines := [],
    input_items := [] }

/-- Witness for C3: the "reverser_1" scenario, timer-enabled delay-3
panel, evaluated concretely. -/
theorem c3_timer_none_or_in_range_witness :
    processOuts envC3 procInit ["reverser_1_timer"] = Except.ok c3OutState
    ∧ timerOk c3OutState.timer :=
  ⟨rfl,
   (c3_timer_none_or_in_range envC3 ["reverser_1_timer"] c3OutState procInit
      "reverser_1_timer" panel3 rfl (by decide) (by decide) (by decide)).1⟩

/-- The panel reconciliation step after the output loop: force every
attached panel's `file` to the timer variant when the item has a finite
timer (else the checkmark variant), and store `item.timer is not None`
into the panel's timer-enabled fixup. -/
def reconcilePanels (panel_timer panel_check : String) (st : ProcState) :
    ProcState :=
  let desired := if st.timer = none then panel_check else panel_timer
  { st with ind_panels := st.ind_panels.map (fun p =>
      { p with file := desired, tim_enabled := st.timer.isSome }) }

/-- C8: after reconciliation every attached panel's file is the timer
variant iff the item's timer is set (the checkmark variant otherwise)
and its timer-enabled fixup equals `timer is not None`; and in the
"reverser_1" scenario (panel enabled with delay 3) the loop ends with
timer 3 and the panel switched to the timer variant. -/
theorem c8_panel_reconciliation
    (panel_timer panel_check : String) (st : ProcState) (p : Panel)
    (hp : p ∈ (reconcilePanels panel_timer panel_check st).ind_panels) :
    (st.timer ≠ none → p.file = panel_timer)
    ∧ (st.timer = none → p.file = panel_check)
    ∧ p.tim_enabled = st.timer.isSome
    ∧ (∀ st3, processOuts envC3 procInit ["reverser_1_timer"]
          = Except.ok st3 →
        st3.timer = some 3 ∧
        ∀ q ∈ (reconcilePanels panel_timer panel_check st3).ind_panels,
          q.file = panel_timer) := by
  simp only [reconcilePanels, List.mem_map] at hp
  obtain ⟨q, hq, hpq⟩ := hp
  subst hpq
  refine ⟨?_, ?_, rfl, ?_⟩
  · intro ht
    simp [ht]
  · intro ht
    simp [ht]
  · intro st3 h3
    have hval : processOuts envC3 procInit ["reverser_1_timer"]
        = Except.ok c3OutState := rfl
    rw [hval] at h3
    have h3' : c3OutState = st3 := by
      injection h3
    subst h3'
    refine ⟨rfl, ?_⟩
    intro q2 hq2
    simp only [reconcilePanels, List.mem_map, c3OutState] at hq2
    obtain ⟨q3, _, hq3⟩ := hq2
    subst hq3
    simp [c3OutState]

/-- Witness for C8: the reconciled "reverser_1" panel, with variant
files "timer_variant" / "check_variant". -/
theorem c8_panel_reconciliation_witness :
    (Panel.mk "reverser_1_timer" true 3 "timer_variant"
        ∈ (reconcilePanels "timer_variant" "check_variant"
            c3OutState).ind_panels)
    ∧ (Panel.mk "reverser_1_timer" true 3 "timer_variant").file
        = "timer_variant" :=
  ⟨by decide,
   (c8_panel_reconciliation "timer_variant" "check_variant" c3OutState
      (Panel.mk "reverser_1_timer" true 3 "timer_variant")
      (by decide)).1 (by decide)⟩

/-- The `'"{}" is not a known instance!'` message. -/
def unknownInstanceMsg (name : String) : String :=
  "\"" ++ name ++ "\" is not a known instance!"

/-- A target name resolving to none of: model/brush sub-entity suffix,
known toggle, known panel, registered item. -/
def badTarget (env : ProcEnv) (name : String) : Prop :=
  isSubEntityName name = false ∧ lookupStr env.toggles name = none ∧
  lookupStr env.panels name = none ∧ env.items.contains name = false

lemma processOut_of_bad (env : ProcEnv) (st : ProcState) (name : String)
    (h : badTarget env name) :
    processOut env st name = Except.error (unknownInstanceMsg name) := by
  obtain ⟨h1, h2, h3, h4⟩ := h
  have h4' : ¬ name ∈ env.items := by simpa using h4
  simp [processOut, h1, h2, h3, h4', unknownInstanceMsg]

lemma processOut_cases (env : ProcEnv) (st : ProcState) (a : String) :
    (∃ st2, processOut env st a = Except.ok st2) ∨
    (badTarget env a ∧
      processOut env st a = Except.error (unknownInstanceMsg a)) := by
  by_cases h1 : isSubEntityName a = true
  · exact Or.inl ⟨st, by simp [processOut, h1]⟩
  · have h1f : isSubEntityName a = false := by simpa using h1
    cases h2 : lookupStr env.toggles a with
    | some ind =>
        exact Or.inl ⟨{ st with antlines := st.antlines ++ env.overlays ind },
          by simp [processOut, h1f, h2]⟩
    | none =>
        cases h3 : lookupStr env.panels a with
        | some pan =>
            exact Or.inl ⟨_, processOut_panel env st a pan h1f h2 h3⟩
        | none =>
            by_cases h4 : env.items.contains a = true
            · have h4' : a ∈ env.items := by simpa using h4
              exact Or.inl
                ⟨{ st with input_items := st.input_items ++ [a] },
                 by simp [processOut, h1f, h2, h3, h4']⟩
            · have h4f : env.items.contains a = false := by simpa using h4
              exact Or.inr ⟨⟨h1f, h2, h3, h4f⟩,
                processOut_of_bad env st a ⟨h1f, h2, h3, h4f⟩⟩

lemma processOuts_bad (env : ProcEnv) (outs : List String) :
    ∀ st name, name ∈ outs → badTarget env name →
      ∃ n, n ∈ outs ∧ badTarget env n ∧
        processOuts env st outs = Except.error (unknownInstanceMsg n) := by
  induction outs with
  | nil => intro st name h; cases h
  | cons a rest ih =>
      intro st name hmem hbad
      rcases processOut_cases env st a with ⟨st1, hok⟩ | ⟨hbada, herr⟩
      · have hname : name ∈ rest := by
          rcases List.mem_cons.mp hmem with heq | h
          · subst heq
            rw [processOut_of_bad env st name hbad] at hok
            cases hok
          · exact h
        obtain ⟨n, hn1, hn2, hn3⟩ := ih st1 name hname hbad
        refine ⟨n, List.mem_cons_of_mem a hn1, hn2, ?_⟩
        rw [processOuts_cons_ok env st a rest st1 hok]
        exact hn3
      · exact ⟨a, List.mem_cons_self a rest, hbada,
          processOuts_cons_err env st a rest _ herr⟩

/-- C9: if some output target is neither a model/brush sub-entity name,
nor a known toggle, panel or registered item, the output loop aborts
with the "is not a known instance!" error naming an offending target,
and never returns a state (no partial graph). -/
theorem c9_unknown_instance_fatal
    (env : ProcEnv) (st : ProcState) (outs : List String) (name : String)
    (hmem : name ∈ outs) (hbad : badTarget env name) :
    (∃ n, n ∈ outs ∧ badTarget env n ∧
       processOuts env st outs = Except.error (unknownInstanceMsg n))
    ∧ ∀ st2, processOuts env st outs ≠ Except.ok st2 := by
  obtain ⟨n, hn1, hn2, hn3⟩ := processOuts_bad env outs st name hmem hbad
  refine ⟨⟨n, hn1, hn2, hn3⟩, ?_⟩
  intro st2 h
  rw [hn3] at h
  cases h

/-- Witness for C9: an item wiring to the unregistered name
"mystery_inst" makes the loop fail with the error naming it. -/
theorem c9_unknown_instance_fatal_witness :
    ("mystery_inst" ∈ ["mystery_inst"] ∧ badTarget envC3 "mystery_inst")
    ∧ (∃ n, n ∈ ["mystery_inst"] ∧ badTarget envC3 n ∧
        processOuts envC3 procInit ["mystery_inst"]
          = Except.error (unknownInstanceMsg n)) :=
  ⟨⟨by decide, by decide, by decide, by decide, by decide⟩,
   (c9_unknown_instance_fatal envC3 procInit ["mystery_inst"] "mystery_inst"
      (by decide) ⟨by decide, by decide, by decide, by decide⟩).1⟩

/-! ## Funnel connection classification

For a target item with the `tbeam_emitter` trait, the source walks the
accumulated low-level outputs and picks the connection type from the
first `(out.inst_in, out.input)` pair found in the polarity set or the
on/off set, raising a fatal error when no pair is in either. -/

/-- An `(out.inst_in, out.input)` pair. -/
structure IOPair where
  inst_in : Option String
  input : String
deriving DecidableEq, Repr

/-- The `'Excursion Funnel "{}" has inputs, but no valid types!'`
message. -/
def funnelErrMsg (name : String) : String :=
  "Excursion Funnel \"" ++ name ++ "\" has inputs, but no valid types!"

/-- The `for out in in_outputs` loop with its two `break`s and the
`for`-`else` clause (`none` = fell through to the error). -/
def classifyFunnelLoop (polarity io : List IOPair) :
    List IOPair → Option ConnType
  | [] => none
  | p :: rest =>
    if polarity.contains p then some ConnType.secondary
    else if io.contains p then some ConnType.primary
    else classifyFunnelLoop polarity io rest

/-- Funnel classification as the source performs it: the loop result, or
the fatal error when no pair matched. -/
def funnelConnType (polarity io : List IOPair) (name : String)
    (outs : List IOPair) : Except String ConnType :=
  match classifyFunnelLoop polarity io outs with
  | some t => Except.ok t
  | none => Except.error (funnelErrMsg name)

/-- Funnel classification as the claim words it: secondary if *any* pair
is in the polarity set, otherwise primary if any pair is in the on/off
set, otherwise the fatal error.  Stated for comparison with
`funnelConnType`. -/
def funnelConnTypeClaim (polarity io : List IOPair) (name : String)
    (outs : List IOPair) : Except String ConnType :=
  if outs.any (fun p => polarity.contains p) then Except.ok ConnType.secondary
  else if outs.any (fun p => io.contains p) then Except.ok ConnType.primary
  else Except.error (funnelErrMsg name)

/-- A polarity-set pair and an on/off-set pair for concrete evaluation
(in the game data these are distinct proxy inputs of the funnel). -/
def c2polPair : IOPair := { inst_in := some "proxy", input := "SetPolarity" }

def c2ioPair : IOPair := { inst_in := some "proxy", input := "Activate" }

def c2polarity : List IOPair := [c2polPair]

def c2io : List IOPair := [c2ioPair]

/-- C2 counterexample: a funnel whose accumulated outputs hold an on/off
pair first and a polarity pair second.  A pair of the outputs is in the
polarity set, yet the code classifies the connection primary (funnel
enable), not secondary: the claim's "secondary if any pair is in the
polarity set" fails on the code, which stops at the first matching
pair. -/
theorem c2_any_polarity_counterexample :
    (c2polarity.contains c2polPair = true
      ∧ c2polPair ∈ [c2ioPair, c2polPair])
    ∧ funnelConnType c2polarity c2io "funnel_1" [c2ioPair, c2polPair]
        = Except.ok ConnType.primary
    ∧ funnelConnTypeClaim c2polarity c2io "funnel_1" [c2ioPair, c2polPair]
        = Except.ok ConnType.secondary
    ∧ funnelConnType c2polarity c2io "funnel_1" [c2ioPair, c2polPair]
        ≠ Except.ok ConnType.secondary :=
  ⟨⟨by decide, by decide⟩, rfl, rfl,
   fun h => absurd (Except.ok.inj h) (by decide)⟩

/-- C2 as amended: the classification is decided by the *first* output
pair lying in either set — secondary when that pair is in the polarity
set, else primary — and the fatal error naming the funnel occurs exactly
when no pair lies in either set. -/
theorem c2_funnel_first_match (polarity io : List IOPair) (name : String)
    (outs : List IOPair) :
    (funnelConnType polarity io name outs =
      match outs.find? (fun p => decide (p ∈ polarity) || decide (p ∈ io)) with
      | some p => Except.ok
          (if p ∈ polarity then ConnType.secondary else ConnType.primary)
      | none => Except.error (funnelErrMsg name))
    ∧ (funnelConnType polarity io name outs
          = Except.error (funnelErrMsg name)
       ↔ ∀ p ∈ outs, p ∉ polarity ∧ p ∉ io) := by
  constructor
  · induction outs with
    | nil => rfl
    | cons p rest ih =>
        by_cases hpol : p ∈ polarity
        · simp [funnelConnType, classifyFunnelLoop, List.find?, hpol]
        · by_cases hio : p ∈ io
          · simp [funnelConnType, classifyFunnelLoop, List.find?, hpol, hio]
          · simpa [funnelConnType, classifyFunnelLoop, List.find?, hpol,
              hio] using ih
  · induction outs with
    | nil =>
        simp [funnelConnType, classifyFunnelLoop]
    | cons p rest ih =>
        by_cases hpol : p ∈ polarity
        · simp [funnelConnType, classifyFunnelLoop, hpol]
        · by_cases hio : p ∈ io
          · simp [funnelConnType, classifyFunnelLoop, hpol, hio]
          · simpa [funnelConnType, classifyFunnelLoop, hpol, hio] using ih

/-! ## The connection-count fixup pass

For every item, `$connectioncount` (when the instance exposes it) is
overwritten with the number of incoming connections that are not
funnel-polarity, and `$connectioncount_polarity` (when exposed) with the
number that are. -/

/-- The per-item data the count pass consults and writes: the incoming
connections' classifications, and the two count fixups with their
exposure flags (`const.FixupVars... in item.inst.fixup`). -/
structure FixItem where
  inputs : List ConnType
  has_conn_count : Bool
  conn_count : Nat
  has_conn_count_tbeam : Bool
  conn_count_tbeam : Nat
deriving DecidableEq, Repr

/-- The body of the second `for item in ITEMS.values()` loop. -/
def fixupCounts (it : FixItem) : FixItem :=
  let it1 :=
    if it.has_conn_count then
      { it with conn_count :=
          List.countP (fun t => !(t == ConnType.tbeam_dir)) it.inputs }
    else it
  if it1.has_conn_count_tbeam then
    { it1 with conn_count_tbeam :=
        List.countP (fun t => t == ConnType.tbeam_dir) it1.inputs }
  else it1

/-- The whole count pass over the item registry. -/
def fixupCountsAll (items : List FixItem) : List FixItem :=
  items.map fixupCounts

/-- C4: when exposed, the connection-count fixup is overwritten with the
number of incoming connections that are not funnel-polarity, the
funnel-count fixup with the number that are; unexposed fixups are left
alone, the graph (incoming list) is untouched, and recomputing the pass
on its own output changes nothing (idempotent). -/
theorem c4_connection_count_fixups (it : FixItem) (items : List FixItem) :
    (it.has_conn_count = true →
      (fixupCounts it).conn_count
        = List.countP (fun t => !(t == ConnType.tbeam_dir)) it.inputs)
    ∧ (it.has_conn_count_tbeam = true →
      (fixupCounts it).conn_count_tbeam
        = List.countP (fun t => t == ConnType.tbeam_dir) it.inputs)
    ∧ (it.has_conn_count = false →
      (fixupCounts it).conn_count = it.conn_count)
    ∧ (it.has_conn_count_tbeam = false →
      (fixupCounts it).conn_count_tbeam = it.conn_count_tbeam)
    ∧ (fixupCounts it).inputs = it.inputs
    ∧ (fixupCounts it).has_conn_count = it.has_conn_count
    ∧ (fixupCounts it).has_conn_count_tbeam = it.has_conn_count_tbeam
    ∧ fixupCounts (fixupCounts it) = fixupCounts it
    ∧ fixupCountsAll (fixupCountsAll items) = fixupCountsAll items := by
  have hmain : ∀ j : FixItem,
      (j.has_conn_count = true →
        (fixupCounts j).conn_count
          = List.countP (fun t => !(t == ConnType.tbeam_dir)) j.inputs)
      ∧ (j.has_conn_count_tbeam = true →
        (fixupCounts j).conn_count_tbeam
          = List.countP (fun t => t == ConnType.tbeam_dir) j.inputs)
      ∧ (j.has_conn_count = false →
        (fixupCounts j).conn_count = j.conn_count)
      ∧ (j.has_conn_count_tbeam = false →
        (fixupCounts j).conn_count_tbeam = j.conn_count_tbeam)
      ∧ (fixupCounts j).inputs = j.inputs
      ∧ (fixupCounts j).has_conn_count = j.has_conn_count
      ∧ (fixupCounts j).has_conn_count_tbeam = j.has_conn_count_tbeam := by
    intro j
    by_cases h1 : j.has_conn_count <;> by_cases h2 : j.has_conn_count_tbeam <;>
      simp [fixupCounts, h1, h2]
  have hidem : ∀ j : FixItem, fixupCounts (fixupCounts j) = fixupCounts j := by
    intro j
    by_cases h1 : j.has_conn_count <;> by_cases h2 : j.has_conn_count_tbeam <;>
      simp [fixupCounts, h1, h2]
  obtain ⟨a, b, c, d, e, f, g⟩ := hmain it
  refine ⟨a, b, c, d, e, f, g, hidem it, ?_⟩
  simp only [fixupCountsAll, List.map_map]
  exact List.map_congr_left (fun j _ => hidem j)

/-- A concrete item for the count pass: three incoming connections, one
funnel-polarity, both count fixups exposed with stale values. -/
def c4item : FixItem :=
  { inputs := [ConnType.secondary, ConnType.primary, ConnType.default],
    has_conn_count := true, conn_count := 99,
    has_conn_count_tbeam := true, conn_count_tbeam := 99 }

/-- Witness for C4: both exposed fixups recomputed on `c4item`. -/
theorem c4_connection_count_fixups_witness :
    c4item.has_conn_count = true
    ∧ (fixupCounts c4item).conn_count
        = List.countP (fun t => !(t == ConnType.tbeam_dir)) c4item.inputs
    ∧ (fixupCounts c4item).conn_count_tbeam
        = List.countP (fun t => t == ConnType.tbeam_dir) c4item.inputs
    ∧ (fixupCounts c4item).conn_count = 2
    ∧ (fixupCounts c4item).conn_count_tbeam = 1 :=
  ⟨rfl,
   (c4_connection_count_fixups c4item []).1 rfl,
   (c4_connection_count_fixups c4item []).2.1 rfl,
   by decide, by decide⟩

/-! ## The classification scan (`for inst in vmf.by_class['func_instance']`)

Each named instance is classified as toggle, panel or normal item; a
normal item's targetname keys it into the `ITEMS` dict — a plain dict
assignment, so a later instance with the same name silently replaces the
earlier entry. -/

/-- A `func_instance` entity as the scan sees it: its targetname, its
trait set and its item-kind identifier. -/
structure Inst where
  targetname : String
  traits : List String
  item_id : String
deriving DecidableEq, Repr

/-- The three dicts the scan fills. `items` is the `ITEMS` registry
(name → instance); dict assignment = function update. -/
structure ScanState where
  toggles : List (String × Inst)
  panels : List (String × Inst)
  items : String → Option Inst

def scanInit : ScanState :=
  { toggles := [], panels := [], items := fun _ => none }

/-- Neither an indicator toggle nor an indicator panel. -/
def isNormalItem (inst : Inst) : Bool :=
  !(inst.traits.contains "indicator_toggle") &&
    !(inst.traits.contains "indicator_panel")

/-- One iteration of the classification loop. -/
def scanStep (itemTypes : List String) (st : ScanState) (inst : Inst) :
    Except String ScanState :=
  if inst.targetname == "" then Except.ok st
  else if inst.traits.contains "indicator_toggle" then
    Except.ok { st with toggles := st.toggles ++ [(inst.targetname, inst)] }
  else if inst.traits.contains "indicator_panel" then
    Except.ok { st with panels := st.panels ++ [(inst.targetname, inst)] }
  else if itemTypes.contains (foldCase inst.item_id) then
    Except.ok { st with
      items := Function.update st.items inst.targetname (some inst) }
  else
    Except.error ("No connections for item \"" ++ inst.item_id
      ++ "\", but connections in the map!")

/-- The whole classification loop. -/
def scanInsts (itemTypes : List String) (st : ScanState)
    (insts : List Inst) : Except String ScanState :=
  insts.foldlM (scanStep itemTypes) st

/-- Does the scan write this instance into `items[n]`? -/
def writesTo (n : String) (i : Inst) : Bool :=
  !(i.targetname == "") && isNormalItem i && (i.targetname == n)

/-- The last instance the scan writes into `items[n]`, threading an
accumulator (the previous registry entry). -/
def lastNormalNamed (n : String) (acc : Option Inst) :
    List Inst → Option Inst
  | [] => acc
  | i :: rest =>
      lastNormalNamed n (if writesTo n i then some i else acc) rest

lemma scanInsts_cons_ok (itemTypes : List String) (st : ScanState)
    (i : Inst) (rest : List Inst) (st1 : ScanState)
    (h : scanStep itemTypes st i = Except.ok st1) :
    scanInsts itemTypes st (i :: rest) = scanInsts itemTypes st1 rest := by
  simp only [scanInsts, List.foldlM, h]
  rfl

lemma scanInsts_cons_err (itemTypes : List String) (st : ScanState)
    (i : Inst) (rest : List Inst) (e : String)
    (h : scanStep itemTypes st i = Except.error e) :
    scanInsts itemTypes st (i :: rest) = Except.error e := by
  simp only [scanInsts, List.foldlM, h]
  rfl

lemma scanStep_items_lookup (itemTypes : List String) (st0 st1 : ScanState)
    (i : Inst) (n : String)
    (hstep : scanStep itemTypes st0 i = Except.ok st1) :
    st1.items n = (if writesTo n i then some i else st0.items n) := by
  unfold scanStep at hstep
  by_cases h1 : i.targetname = ""
  · simp only [h1, beq_self_eq_true, if_true] at hstep
    cases hstep
    simp [writesTo, h1]
  · have h1b : (i.targetname == "") = false := by simp [h1]
    rw [h1b] at hstep
    simp only [Bool.false_eq_true, if_false] at hstep
    by_cases h2 : i.traits.contains "indicator_toggle" = true
    · rw [h2] at hstep
      simp only [if_true] at hstep
      cases hstep
      have h2m : "indicator_toggle" ∈ i.traits := by simpa using h2
      simp [writesTo, isNormalItem, h2m]
    · have h2b : i.traits.contains "indicator_toggle" = false := by
        simpa using h2
      rw [h2b] at hstep
      simp only [Bool.false_eq_true, if_false] at hstep
      by_cases h3 : i.traits.contains "indicator_panel" = true
      · rw [h3] at hstep
        simp only [if_true] at hstep
        cases hstep
        have h3m : "indicator_panel" ∈ i.traits := by simpa using h3
        simp [writesTo, isNormalItem, h3m]
      · have h3b : i.traits.contains "indicator_panel" = false := by
          simpa using h3
        rw [h3b] at hstep
        simp only [Bool.false_eq_true, if_false] at hstep
        by_cases h4 : itemTypes.contains (foldCase i.item_id) = true
        · rw [h4] at hstep
          simp only [if_true] at hstep
          cases hstep
          simp only [Function.update_apply, writesTo, isNormalItem, h1b,
            h2b, h3b, Bool.not_false, Bool.true_and]
          by_cases h5 : i.targetname = n
          · simp [h5]
          · have h5' : ¬ n = i.targetname := fun h => h5 h.symm
            simp [h5, h5']
        · have h4b : itemTypes.contains (foldCase i.item_id) = false := by
            simpa using h4
          rw [h4b] at hstep
          simp only [Bool.false_eq_true, if_false] at hstep
          cases hstep

lemma scan_items_lookup (itemTypes : List String) (n : String) :
    ∀ (insts : List Inst) (st0 st : ScanState),
      scanInsts itemTypes st0 insts = Except.ok st →
      st.items n = lastNormalNamed n (st0.items n) insts := by
  intro insts
  induction insts with
  | nil =>
      intro st0 st h
      simp only [scanInsts, List.foldlM] at h
      cases h
      rfl
  | cons i rest ih =>
      intro st0 st h
      cases hstep : scanStep itemTypes st0 i with
      | error e =>
          rw [scanInsts_cons_err itemTypes st0 i rest e hstep] at h
          cases h
      | ok st1 =>
          rw [scanInsts_cons_ok itemTypes st0 i rest st1 hstep] at h
          rw [ih st1 st h, lastNormalNamed,
            scanStep_items_lookup itemTypes st0 st1 i n hstep]

lemma scan_ok (itemTypes : List String) :
    ∀ (insts : List Inst) (st0 : ScanState),
      (∀ i ∈ insts, isNormalItem i = true →
        itemTypes.contains (foldCase i.item_id) = true) →
      ∃ st, scanInsts itemTypes st0 insts = Except.ok st := by
  intro insts
  induction insts with
  | nil =>
      intro st0 _
      exact ⟨st0, rfl⟩
  | cons i rest ih =>
      intro st0 hids
      have hrest : ∀ j ∈ rest, isNormalItem j = true →
          itemTypes.contains (foldCase j.item_id) = true :=
        fun j hj => hids j (List.mem_cons_of_mem i hj)
      have hstep : ∃ st1, scanStep itemTypes st0 i = Except.ok st1 := by
        unfold scanStep
        by_cases h1 : i.targetname = ""
        · exact ⟨st0, by simp [h1]⟩
        · have h1b : (i.targetname == "") = false := by simp [h1]
          rw [h1b]
          by_cases h2 : i.traits.contains "indicator_toggle" = true
          · rw [h2]; exact ⟨_, rfl⟩
          · have h2b : i.traits.contains "indicator_toggle" = false := by
              simpa using h2
            rw [h2b]
            by_cases h3 : i.traits.contains "indicator_panel" = true
            · rw [h3]; exact ⟨_, rfl⟩
            · have h3b : i.traits.contains "indicator_panel" = false := by
                simpa using h3
              rw [h3b]
              have h2m : ¬ "indicator_toggle" ∈ i.traits := by simpa using h2b
              have h3m : ¬ "indicator_panel" ∈ i.traits := by simpa using h3b
              have hnorm : isNormalItem i = true := by
                simp [isNormalItem, h2m, h3m]
              have h4 := hids i (List.mem_cons_self i rest) hnorm
              rw [h4]
              exact ⟨_, rfl⟩
      obtain ⟨st1, hstep⟩ := hstep
      obtain ⟨st2, hst2⟩ := ih st1 hrest
      exact ⟨st2, by
        rw [scanInsts_cons_ok itemTypes st0 i rest st1 hstep]
        exact hst2⟩

lemma lastNormalNamed_append (n : String) (acc : Option Inst)
    (l1 l2 : List Inst) :
    lastNormalNamed n acc (l1 ++ l2)
      = lastNormalNamed n (lastNormalNamed n acc l1) l2 := by
  induction l1 generalizing acc with
  | nil => rfl
  | cons i rest ih =>
      simp only [List.cons_append, lastNormalNamed]
      exact ih _

lemma lastNormalNamed_no_write (n : String) (acc : Option Inst)
    (l : List Inst) (h : ∀ i ∈ l, writesTo n i = false) :
    lastNormalNamed n acc l = acc := by
  induction l generalizing acc with
  | nil => rfl
  | cons i rest ih =>
      simp only [lastNormalNamed, h i (List.mem_cons_self i rest),
        Bool.false_eq_true, if_false]
      exact ih acc (fun j hj => h j (List.mem_cons_of_mem i hj))

lemma writesTo_true (n : String) (i : Inst) (hn : i.targetname = n)
    (hne : n ≠ "") (hnorm : isNormalItem i = true) : writesTo n i = true := by
  have : ¬ i.targetname = "" := by rw [hn]; exact hne
  simp [writesTo, hn, this, hnorm, hne]

/-- C10: two normal-item instances sharing a non-empty targetname cause
no error in the classification scan — provided every normal instance's
item kind is registered, the scan succeeds, and the registry entry for
that name is the later-scanned instance (dict assignment silently
replaces the earlier one), so exactly one Item survives under the
name. -/
theorem c10_duplicate_name_silent_replace
    (itemTypes : List String) (pre mid post : List Inst) (i1 i2 : Inst)
    (n : String)
    (hn1 : i1.targetname = n) (hn2 : i2.targetname = n) (hne : n ≠ "")
    (hi1 : isNormalItem i1 = true) (hi2 : isNormalItem i2 = true)
    (hids : ∀ i ∈ pre ++ [i1] ++ mid ++ [i2] ++ post,
      isNormalItem i = true → itemTypes.contains (foldCase i.item_id) = true)
    (hpost : ∀ i ∈ post, ¬(isNormalItem i = true ∧ i.targetname = n)) :
    ∃ st, scanInsts itemTypes scanInit (pre ++ [i1] ++ mid ++ [i2] ++ post)
        = Except.ok st ∧ st.items n = some i2 := by
  obtain ⟨st, hst⟩ :=
    scan_ok itemTypes (pre ++ [i1] ++ mid ++ [i2] ++ post) scanInit hids
  refine ⟨st, hst, ?_⟩
  rw [scan_items_lookup itemTypes n _ scanInit st hst]
  have hpostw : ∀ i ∈ post, writesTo n i = false := by
    intro i hi
    by_cases hw : writesTo n i = true
    · exfalso
      apply hpost i hi
      have h1 : isNormalItem i = true := by
        simp only [writesTo, Bool.and_assoc] at hw
        have := (Bool.and_eq_true _ _).mp hw
        exact ((Bool.and_eq_true _ _).mp this.2).1
      have h2 : i.targetname = n := by
        simp only [writesTo] at hw
        have := (Bool.and_eq_true _ _).mp hw
        simpa using this.2
      exact ⟨h1, h2⟩
    · simpa using hw
  rw [lastNormalNamed_append n _ (pre ++ [i1] ++ mid ++ [i2]) post,
    lastNormalNamed_append n _ (pre ++ [i1] ++ mid) [i2]]
  rw [lastNormalNamed_no_write n _ post hpostw]
  simp only [lastNormalNamed, writesTo_true n i2 hn2 hne hi2, if_true]

/-- First instance named "btn" (item id differing only in case from the
registered key, as the scan casefolds it). -/
def c10inst1 : Inst :=
  { targetname := "btn", traits := [], item_id := "ITEM_BUTTON" }

/-- Second instance named "btn", scanned later. -/
def c10inst2 : Inst :=
  { targetname := "btn", traits := ["second_copy"], item_id := "item_button" }

/-- Witness for C10: scanning two "btn" instances back to back succeeds
and leaves the second one in the registry. -/
theorem c10_duplicate_name_silent_replace_witness :
    ∃ st, scanInsts ["item_button"] scanInit
        ([] ++ [c10inst1] ++ [] ++ [c10inst2] ++ [])
      = Except.ok st ∧ st.items "btn" = some c10inst2 :=
  c10_duplicate_name_silent_replace ["item_button"] [] [] [] c10inst1
    c10inst2 "btn" rfl rfl (by decide) (by decide) (by decide)
    (by decide) (by simp)

/-! ## Signage frame pass

Shape signage groups sharing a palette index are sorted by name and get
repeat-group numbers and frame overlays.  Sorting needs the name order
to be total, transitive and antisymmetric. -/

lemma charListLe_total : ∀ as bs : List Char,
    charListLe as bs = true ∨ charListLe bs as = true := by
  intro as
  induction as with
  | nil => intro bs; exact Or.inl rfl
  | cons a as ih =>
      intro bs
      cases bs with
      | nil => exact Or.inr rfl
      | cons b bs =>
          by_cases h1 : a.toNat < b.toNat
          · exact Or.inl (by simp [charListLe, h1])
          · by_cases h2 : b.toNat < a.toNat
            · exact Or.inr (by simp [charListLe, h2])
            · rcases ih bs with h | h
              · exact Or.inl (by simp [charListLe, h1, h2, h])
              · exact Or.inr (by simp [charListLe, h1, h2, h])

lemma charListLe_trans : ∀ as bs cs : List Char,
    charListLe as bs = true → charListLe bs cs = true →
    charListLe as cs = true := by
  intro as
  induction as with
  | nil => intro bs cs _ _; rfl
  | cons a as ih =>
      intro bs cs h1 h2
      cases bs with
      | nil => simp [charListLe] at h1
      | cons b bs =>
          cases cs with
          | nil => simp [charListLe] at h2
          | cons c cs =>
              simp only [charListLe] at h1 h2 ⊢
              by_cases hab : a.toNat < b.toNat
              · by_cases hbc : b.toNat < c.toNat
                · simp [show a.toNat < c.toNat from Nat.lt_trans hab hbc]
                · by_cases hcb : c.toNat < b.toNat
                  · rw [if_neg hbc, if_pos hcb] at h2
                    simp at h2
                  · have hac : a.toNat < c.toNat := by omega
                    simp [hac]
              · by_cases hba : b.toNat < a.toNat
                · rw [if_neg hab, if_pos hba] at h1
                  simp at h1
                · rw [if_neg hab, if_neg hba] at h1
                  by_cases hbc : b.toNat < c.toNat
                  · have hac : a.toNat < c.toNat := by omega
                    simp [hac]
                  · by_cases hcb : c.toNat < b.toNat
                    · rw [if_neg hbc, if_pos hcb] at h2
                      simp at h2
                    · rw [if_neg hbc, if_neg hcb] at h2
                      have hac1 : ¬ a.toNat < c.toNat := by omega
                      have hca : ¬ c.toNat < a.toNat := by omega
                      rw [if_neg hac1, if_neg hca]
                      exact ih bs cs h1 h2

lemma charListLe_antisymm : ∀ as bs : List Char,
    charListLe as bs = true → charListLe bs as = true → as = bs := by
  intro as
  induction as with
  | nil =>
      intro bs h1 h2
      cases bs with
      | nil => rfl
      | cons b bs => simp [charListLe] at h2
  | cons a as ih =>
      intro bs h1 h2
      cases bs with
      | nil => simp [charListLe] at h1
      | cons b bs =>
          simp only [charListLe] at h1 h2
          by_cases hab : a.toNat < b.toNat
          · have hba : ¬ b.toNat < a.toNat := by omega
            rw [if_neg hba, if_pos hab] at h2
            simp at h2
          · by_cases hba : b.toNat < a.toNat
            · rw [if_neg hab, if_pos hba] at h1
              simp at h1
            · have heq : a.toNat = b.toNat := by omega
              have hc : a = b := Char.ext (UInt32.toNat.inj heq)
              rw [if_neg hab, if_neg hba] at h1
              rw [if_neg hba, if_neg hab] at h2
              rw [hc, ih bs h1 h2]

lemma stringEq_of_data (s t : String) (h : s.data = t.data) : s = t :=
  congrArg String.mk h

lemma nameLe_antisymm (s t : String) (h1 : nameLe s t = true)
    (h2 : nameLe t s = true) : s = t :=
  stringEq_of_data s t (charListLe_antisymm s.data t.data h1 h2)

/-- An `info_overlay` entity as the frame pass uses it: its material,
its render order, and an opaque payload standing for all the other
keyvalues `copy()` duplicates. -/
structure Overlay where
  material : String
  renderorder : Nat
  payload : Nat
deriving DecidableEq, Repr

/-- A `ShapeSignage` unit: name, palette index, repeat group, member
overlays and synthesized frame overlays. -/
structure Shape where
  name : String
  index : Nat
  repeat_group : Nat
  overlays : List Overlay
  overlay_frames : List Overlay
deriving DecidableEq, Repr

/-- The sort key: compare shapes by name. -/
def shapeLe (a b : Shape) : Prop := nameLe a.name b.name = true

instance : DecidableRel shapeLe :=
  fun a b => inferInstanceAs (Decidable (nameLe a.name b.name = true))

instance : IsTotal Shape shapeLe :=
  ⟨fun a b => charListLe_total a.name.data b.name.data⟩

instance : IsTrans Shape shapeLe :=
  ⟨fun a b c => charListLe_trans a.name.data b.name.data c.name.data⟩

/-- `shape_mat.sort(key=lambda shape: shape.name)`. -/
def sortByName (l : List Shape) : List Shape := List.insertionSort shapeLe l

lemma sortByName_perm (l : List Shape) : (sortByName l).Perm l :=
  List.perm_insertionSort shapeLe l

lemma sortByName_sorted (l : List Shape) :
    List.Sorted shapeLe (sortByName l) :=
  List.sorted_insertionSort shapeLe l

/-- Two scan orders of the same shapes with pairwise-distinct names sort
to the same list. -/
lemma sortByName_eq_of_perm (l1 l2 : List Shape) (hperm : l1.Perm l2)
    (hnodup : (l1.map (fun s => s.name)).Nodup) :
    sortByName l1 = sortByName l2 := by
  have hne1 : l1.Pairwise (fun a b => a.name ≠ b.name) := by
    rw [List.Nodup, List.pairwise_map] at hnodup
    exact hnodup
  have hperm12 : (sortByName l1).Perm (sortByName l2) :=
    (sortByName_perm l1).trans (hperm.trans (sortByName_perm l2).symm)
  have hsym : Symmetric (fun a b : Shape => a.name ≠ b.name) :=
    fun a b h e => h e.symm
  have hne1' : (sortByName l1).Pairwise (fun a b => a.name ≠ b.name) :=
    ((sortByName_perm l1).pairwise_iff (fun h => hsym h)).mpr hne1
  have hne2' : (sortByName l2).Pairwise (fun a b => a.name ≠ b.name) :=
    (hperm12.pairwise_iff (fun h => hsym h)).mp hne1'
  have hs1 : (sortByName l1).Pairwise
      (fun a b => shapeLe a b ∧ a.name ≠ b.name) :=
    (sortByName_sorted l1).and hne1'
  have hs2 : (sortByName l2).Pairwise
      (fun a b => shapeLe a b ∧ a.name ≠ b.name) :=
    (sortByName_sorted l2).and hne2'
  haveI : IsAntisymm Shape (fun a b => shapeLe a b ∧ a.name ≠ b.name) :=
    ⟨fun a b h1 h2 =>
      absurd (nameLe_antisymm a.name b.name h1.1 h2.1) h1.2⟩
  exact List.eq_of_perm_of_sorted hperm12 hs1 hs2

/-- `[mat for mat in shape_frame_tex if mat]`: drop empty entries. -/
def framesTex (l : List String) : List String :=
  l.filter (fun m => !(m == ""))

/-- `frame = overlay.copy(); frame['material'] = mat;
frame['renderorder'] = 1`. -/
def mkFrame (mat : String) (o : Overlay) : Overlay :=
  { o with material := mat, renderorder := 1 }

/-- The body of `for index, shape in enumerate(shape_mat)`. -/
def frameShape (tex : List String) (index : Nat) (shape : Shape) : Shape :=
  if index = 0 then { shape with repeat_group := 0 }
  else
    { shape with
      repeat_group := index,
      overlay_frames := shape.overlay_frames ++
        shape.overlays.map (mkFrame (tex.getD ((index - 1) % tex.length) "")) }

/-- The `enumerate` loop, carrying the running index. -/
def frameLoop (tex : List String) : Nat → List Shape → List Shape
  | _, [] => []
  | i, s :: rest => frameShape tex i s :: frameLoop tex (i + 1) rest

/-- Processing of one palette-index group: sort by name, then number and
frame in order. -/
def processGroup (tex : List String) (shapes : List Shape) : List Shape :=
  frameLoop tex 0 (sortByName shapes)

/-- The whole frame pass with its guard. -/
def applyShapeFrames (shape_frame_tex : List String) (enable : Bool)
    (groups : List (List Shape)) : List (List Shape) :=
  let tex := framesTex shape_frame_tex
  if !tex.isEmpty && enable then groups.map (processGroup tex) else groups

lemma frameLoop_length (tex : List String) :
    ∀ (k : Nat) (l : List Shape), (frameLoop tex k l).length = l.length := by
  intro k l
  induction l generalizing k with
  | nil => rfl
  | cons s rest ih => simp [frameLoop, ih]

lemma frameLoop_get (tex : List String) :
    ∀ (l : List Shape) (k i : Nat) (h1 : i < (frameLoop tex k l).length)
      (h2 : i < l.length),
      (frameLoop tex k l).get ⟨i, h1⟩
        = frameShape tex (k + i) (l.get ⟨i, h2⟩) := by
  intro l
  induction l with
  | nil => intro k i h1 h2; exact absurd h2 (Nat.not_lt_zero i)
  | cons s rest ih =>
      intro k i h1 h2
      cases i with
      | zero => simp [frameLoop]
      | succ n =>
          have h1' : n < (frameLoop tex (k + 1) rest).length := by
            rw [frameLoop_length]
            rw [frameLoop_length] at h1
            exact Nat.lt_of_succ_lt_succ h1
          have h2' : n < rest.length := Nat.lt_of_succ_lt_succ h2
          calc (frameLoop tex k (s :: rest)).get ⟨n + 1, h1⟩
              = (frameLoop tex (k + 1) rest).get ⟨n, h1'⟩ := rfl
            _ = frameShape tex ((k + 1) + n) (rest.get ⟨n, h2'⟩) :=
                ih (k + 1) n h1' h2'
            _ = frameShape tex (k + (n + 1)) (rest.get ⟨n, h2'⟩) := by
                rw [show k + 1 + n = k + (n + 1) by omega]

/-- C7: the frame pass runs only when the filtered frame-material list
is non-empty and the flag is set (otherwise groups are untouched); when
it runs, each palette-index group is sorted by name, the shape at sorted
position `i` gets `repeat_group = i`, position 0 gets no frames, and
each position `i > 0` gets exactly one copied frame per member overlay
with material `tex[(i-1) % len(tex)]` and raised render order; and the
result per group is independent of scan order (a deterministic function
of the names). -/
theorem c7_signage_frame_groups
    (shape_frame_tex : List String) (enable : Bool)
    (groups : List (List Shape)) (g g2 : List Shape) (i : Nat)
    (h : i < (sortByName g).length)
    (hginit : ∀ s ∈ g, s.overlay_frames = [])
    (hperm : g.Perm g2)
    (hnodup : (g.map (fun s => s.name)).Nodup) :
    ((framesTex shape_frame_tex).isEmpty = true ∨ enable = false →
      applyShapeFrames shape_frame_tex enable groups = groups)
    ∧ ((framesTex shape_frame_tex).isEmpty = false → enable = true →
      applyShapeFrames shape_frame_tex enable groups
        = groups.map (processGroup (framesTex shape_frame_tex)))
    ∧ (∀ tex : List String,
        ∃ h2 : i < (processGroup tex g).length,
          ((processGroup tex g).get ⟨i, h2⟩).repeat_group = i
          ∧ ((processGroup tex g).get ⟨i, h2⟩).name
              = ((sortByName g).get ⟨i, h⟩).name
          ∧ (i = 0 →
              ((processGroup tex g).get ⟨i, h2⟩).overlay_frames = [])
          ∧ (0 < i →
              ((processGroup tex g).get ⟨i, h2⟩).overlay_frames
                = ((sortByName g).get ⟨i, h⟩).overlays.map
                    (mkFrame (tex.getD ((i - 1) % tex.length) ""))))
    ∧ (∀ tex : List String, processGroup tex g = processGroup tex g2) := by
  refine ⟨?_, ?_, ?_, ?_⟩
  · intro hcase
    unfold applyShapeFrames
    rcases hcase with hemp | hen
    · simp [hemp]
    · simp [hen]
  · intro hemp hen
    unfold applyShapeFrames
    simp [hemp, hen]
  · intro tex
    have h2 : i < (processGroup tex g).length := by
      unfold processGroup
      rw [frameLoop_length]
      exact h
    have hget : (processGroup tex g).get ⟨i, h2⟩
        = frameShape tex i ((sortByName g).get ⟨i, h⟩) := by
      have hx := frameLoop_get tex (sortByName g) 0 i
        (by rw [frameLoop_length]; exact h) h
      rw [Nat.zero_add] at hx
      exact hx
    have hs0mem : (sortByName g).get ⟨i, h⟩ ∈ g :=
      (sortByName_perm g).mem_iff.mp (List.get_mem _ _ _)
    have hs0frames : ((sortByName g).get ⟨i, h⟩).overlay_frames = [] :=
      hginit _ hs0mem
    simp only [List.get_eq_getElem] at hs0frames
    refine ⟨h2, ?_, ?_, ?_, ?_⟩
    · rw [hget]
      by_cases hi : i = 0
      · subst hi; simp [frameShape]
      · simp [frameShape, hi]
    · rw [hget]
      by_cases hi : i = 0 <;> simp [frameShape, hi]
    · intro hi
      subst hi
      rw [hget]
      simp [frameShape, hs0frames]
    · intro hi
      have hi0 : ¬ i = 0 := by omega
      rw [hget]
      simp [frameShape, hi0, hs0frames]
  · intro tex
    unfold processGroup
    rw [sortByName_eq_of_perm g g2 hperm hnodup]

/-- Three shapes sharing palette index 2, named "a", "b", "c", in two
different scan orders. -/
def shapeA : Shape :=
  { name := "a", index := 2, repeat_group := 0,
    overlays := [Overlay.mk "sign_mat" 0 0], overlay_frames := [] }

def shapeB : Shape :=
  { name := "b", index := 2, repeat_group := 0,
    overlays := [Overlay.mk "sign_mat" 0 1], overlay_frames := [] }

def shapeC : Shape :=
  { name := "c", index := 2, repeat_group := 0,
    overlays := [Overlay.mk "sign_mat" 0 2], overlay_frames := [] }

def c7group : List Shape := [shapeB, shapeC, shapeA]

def c7group2 : List Shape := [shapeC, shapeA, shapeB]

/-- Witness for C7: the spec's three-shape scenario, in two scan orders,
processed identically. -/
theorem c7_signage_frame_groups_witness :
    (1 < (sortByName c7group).length
     ∧ (∀ s ∈ c7group, s.overlay_frames = [])
     ∧ c7group.Perm c7group2
     ∧ (c7group.map (fun s => s.name)).Nodup)
    ∧ (∀ tex : List String,
        processGroup tex c7group = processGroup tex c7group2) :=
  ⟨⟨by decide, by decide, by decide, by decide⟩,
   (c7_signage_frame_groups ["f1"] true [] c7group c7group2 1 (by decide)
      (by decide) (by decide) (by decide)).2.2.2⟩
